import Mathlib

/-!
Shallow embedding of the valentinesProposal repository's two scripts:
the penguin easter-egg tracker (`PenguinTracker` in the unnamed penguin
script) and the intro interaction gate (`IntroHandler` in
`js/main.js`), together with proofs of the specification claims about
them.

Modelling conventions:
* The single `localStorage` slot under the key `penguinsFound` is
  modelled by `StoredValue`: what `localStorage.getItem` +
  `JSON.parse` can yield, abstracting serialized text to its parse
  result (JSON serialization of JSON-representable values round-trips
  exactly, so `JSON.stringify` output is modelled as the value it
  denotes).
* JS `Set` objects are modelled as insertion-ordered duplicate-free
  lists; `Set.add`/`Set.has` compare with JS SameValueZero, which on
  JSON data is structural equality on primitives and reference
  (never-equal-to-a-fresh-value) identity on arrays/objects.
* Exceptions are modelled with `Except`/`Option`; a thrown exception
  carries the mutated state at the throw point (JS does not roll back
  assignments).
* The page's static element ids are modelled by `domElementIds`: the
  five penguin containers plus the controls, containers and counter
  elements `main.js` requires from first render.  `getElementById`
  yields an element exactly for these, so the unguarded dereference in
  `createCelebrationEffect` throws exactly for ids outside this list.
  The two style elements injected lazily by the feedback and
  celebration effects are not modelled (no claim depends on them).
  The display helpers in `main.js` (`updatePenguinCountDisplay`,
  `revealSecretSection`) null-guard their own lookups and are
  modelled as total updates of display fields.
* The Yes-button scale arithmetic (increments of 0.3, thresholds 4
  and 10) is modelled exactly over `ℚ`.  IEEE-754 rounding could at
  most shift the step at which a threshold is crossed by one; none of
  the proved gate properties depends on the exact crossing step.
-/

namespace ValentineProposal

/-- Primitive JSON values (`JSON.parse` output other than arrays and
objects).  JS SameValueZero on these is structural equality. -/
inductive JSPrim where
  | str (s : String)
  | num (n : Int)
  | boolean (b : Bool)
  | null
  deriving DecidableEq

/-- Values produced by `JSON.parse`: primitives, arrays, objects.
Objects are opaque here (the tracker never reads stored object
fields; `new Set` rejects them as non-iterable). -/
inductive JSValue where
  | prim (p : JSPrim)
  | arr (elems : List JSValue)
  | obj

/-- JS SameValueZero, the equality used by `Set.has`/`Set.add`.
Structural on primitives; arrays and objects freshly produced by
`JSON.parse` are reference-distinct from every other value, so the
comparison is `false` whenever either side is an array or object. -/
def sameValueZero : JSValue → JSValue → Bool
  | .prim p, .prim q => decide (p = q)
  | _, _ => false

/-- Membership test of a JS `Set` represented as its insertion-ordered
element list (`Set.has`). -/
def jsSetMem (l : List JSValue) (x : JSValue) : Bool :=
  l.any (fun y => sameValueZero y x)

/-- `Set.add`: appends the element unless an equal one is present. -/
def jsSetAdd (l : List JSValue) (x : JSValue) : List JSValue :=
  if jsSetMem l x then l else l ++ [x]

/-- `new Set(iterable)` on a list of elements: left-to-right insertion. -/
def jsSetOf (elems : List JSValue) : List JSValue :=
  elems.foldl jsSetAdd []

/-- Iterating a JS string yields its characters as 1-character strings;
this is what `new Set(aString)` receives. -/
def charValues (s : String) : List JSValue :=
  s.toList.map (fun c => .prim (.str (String.mk [c])))

/-- The string element for a penguin identifier, as stored in the
`foundPenguins` set. -/
def isStr (id : String) : JSValue := .prim (.str id)

/-- `new Set(v)` for a parsed JSON value `v`: arrays iterate their
elements, strings iterate their characters, `null` yields the empty
set, and every other value is not iterable — a `TypeError`. -/
def newSetOf : JSValue → Except Unit (List JSValue)
  | .arr elems => .ok (jsSetOf elems)
  | .prim (.str s) => .ok (jsSetOf (charValues s))
  | .prim .null => .ok []
  | _ => .error ()

/-- The `penguinsFound` slot of `localStorage`, abstracted to what
`getItem` followed by `JSON.parse` can produce. -/
inductive StoredValue where
  | absent
  | unreadable
  | emptyStr
  | malformed
  | parsed (v : JSValue)

/-- Body of the `try` block of `PenguinTracker.loadProgress`:
`getItem` (throws when storage is disabled), the `if (saved)` guard
(`null` and the empty string are falsy), `JSON.parse` (throws on
unparsable text) and `new Set(...)` (throws on non-iterable values). -/
def loadBody : StoredValue → Except Unit (List JSValue)
  | .absent => .ok []
  | .unreadable => .error ()
  | .emptyStr => .ok []
  | .malformed => .error ()
  | .parsed v => newSetOf v

/-- `PenguinTracker.loadProgress`: the `try` body with every exception
caught, falling back to `new Set()`. -/
def loadProgress (sv : StoredValue) : List JSValue :=
  match loadBody sv with
  | .ok l => l
  | .error _ => []

/-- `PenguinTracker.saveProgress` seen from the slot:
`JSON.stringify(Array.from(set))` stores text that parses back to the
array of the set's elements. -/
def saveSlot (found : List JSValue) : StoredValue :=
  .parsed (.arr found)

/-- The penguin identifier universe (`this.penguinIds` in the
constructor). -/
def penguinIds : List String :=
  ["penguin1", "penguin2", "penguin3", "penguin4", "penguin5"]

/-- The element ids present in the page's static markup: the five
penguin containers plus every id `main.js` looks up and the spec
requires from first render (the accept/decline controls, the intro and
main containers, the counter elements and the secret section).
`document.getElementById` returns an element exactly for these. -/
def domElementIds : List String :=
  penguinIds ++ ["btnYes", "btnNo", "introSection", "mainContent",
    "penguinCounter", "penguinCount", "secretSection"]

/-- A stored value that is a well-formed serialized identifier set:
a JSON array.  Used to state what "the stored set" is. -/
def storedIdentifierSet : StoredValue → Option (List JSValue)
  | .parsed (.arr elems) => some elems
  | _ => none

/-- Characterization of `loadProgress` used for the load contract:
arrays load as the set of their elements, strings as the set of their
characters, and everything else (absent, disabled, unparsable,
non-iterable) as the empty set. -/
def loadSpec : StoredValue → List JSValue
  | .parsed (.arr elems) => jsSetOf elems
  | .parsed (.prim (.str s)) => jsSetOf (charValues s)
  | _ => []

/-- State of the penguin system in one session: the tracker's fields
(`foundPenguins`, the key set of `penguinHandlers`), the persisted
slot, and the observable effects of the collaborator calls the
handler makes (counter display, secret reveal, and invocation counts
of the celebration, feedback and completion-check routines). -/
structure AppState where
  found : List JSValue
  handlers : List String
  slot : StoredValue
  displayedCount : Nat
  counterShown : Bool
  revealed : Bool
  celebrations : Nat
  feedbacks : Nat
  completionChecks : Nat
  completionSignals : Nat

/-- `updatePenguinCountDisplay` in `main.js`: writes the count into
the counter element and shows the counter once the count is
positive. -/
def updatePenguinCountDisplay (count : Nat) (s : AppState) : AppState :=
  let s1 := { s with displayedCount := count }
  if count > 0 then { s1 with counterShown := true } else s1

/-- The condition of `checkForCompletion`:
`this.foundPenguins.size === this.penguinIds.length`. -/
def isComplete (s : AppState) : Bool :=
  s.found.length == penguinIds.length

/-- `PenguinTracker.allPenguinsFound`: the `CompletionReached` signal.
The 300ms `setTimeout` body (completion celebration and
`revealSecretSection`) is modelled as having run. -/
def allPenguinsFound (s : AppState) : AppState :=
  { s with completionSignals := s.completionSignals + 1, revealed := true }

/-- `PenguinTracker.checkForCompletion`: signals completion whenever
the set's size equals the universe's length.  There is no
"already signaled" guard in the code. -/
def checkForCompletion (s : AppState) : AppState :=
  let s1 := { s with completionChecks := s.completionChecks + 1 }
  if isComplete s1 then allPenguinsFound s1 else s1

/-- `PenguinTracker.handlePenguinClick`, line by line.  The id is
added to the set and persisted first — with no universe check.  Then
`document.getElementById(penguinId)` is dereferenced without a null
guard by `createCelebrationEffect` (`.getBoundingClientRect()`): for
an id naming no element of the page a `TypeError` is thrown with the
set already mutated (the error value carries the state at the throw
point), while for an id naming any existing element — penguin or not —
the handler runs to completion. -/
def handlePenguinClick (s : AppState) (penguinId : String) : Except (String × AppState) AppState :=
  let found1 := jsSetAdd s.found (isStr penguinId)
  let s1 := { s with found := found1 }
  let s2 := { s1 with slot := saveSlot found1 }
  if penguinId ∈ domElementIds then
    let s3 := { s2 with celebrations := s2.celebrations + 1 }
    let s4 := { s3 with handlers := s3.handlers.erase penguinId }
    let s5 := updatePenguinCountDisplay s4.found.length s4
    let s6 := { s5 with feedbacks := s5.feedbacks + 1 }
    .ok (checkForCompletion s6)
  else
    .error ("TypeError: penguinContainer is null", s2)

/-- Observable outcome of a click event on a penguin element. -/
inductive Outcome where
  | handled
  | ignored
  | threw (msg : String)

/-- The program state after a handler call, whether it returned
normally or threw (a JS exception does not roll back assignments). -/
def stateAfter (r : Except (String × AppState) AppState) : AppState :=
  match r with
  | .ok s1 => s1
  | .error (_, s1) => s1

/-- Whether a handler call threw. -/
def didThrow (r : Except (String × AppState) AppState) : Bool :=
  match r with
  | .ok _ => false
  | .error _ => true

/-- A click event on the penguin element with the given id: the
handler runs only while its listener is registered
(`penguinHandlers`); `handlePenguinClick` removes the listener on its
first run, so later clicks on the same penguin dispatch nothing. -/
def clickPenguin (s : AppState) (id : String) : AppState × Outcome :=
  if s.handlers.contains id then
    match handlePenguinClick s id with
    | .ok s1 => (s1, .handled)
    | .error (m, s1) => (s1, .threw m)
  else
    (s, .ignored)

/-- Fold a sequence of penguin-click events over the state. -/
def runClicks (s : AppState) (l : List String) : AppState :=
  l.foldl (fun s1 id => (clickPenguin s1 id).1) s

/-- The tracker constructor: loads the set from the slot, registers a
click listener for every penguin not already found (`initPenguins`;
all five penguin elements exist in the page), and runs
`updateDisplay`. -/
def constructTracker (sv : StoredValue) : AppState :=
  let found := loadProgress sv
  let handlers := penguinIds.filter (fun id => !(jsSetMem found (isStr id)))
  updatePenguinCountDisplay found.length
    { found := found, handlers := handlers, slot := sv,
      displayedCount := 0, counterShown := false, revealed := false,
      celebrations := 0, feedbacks := 0, completionChecks := 0,
      completionSignals := 0 }

/-- `initPage` in `main.js`, restricted to the slot: it removes the
penguinsFound entry from localStorage unconditionally at page load,
before the intro handler is even constructed. -/
def initPageSlot (_sv : StoredValue) : StoredValue :=
  .absent

/-- The tracker a fresh session constructs: `initPage` has cleared the
slot before `activatePenguins` runs (the Yes click strictly follows
page load). -/
def initApp : AppState :=
  constructTracker .absent

/-- The `noMessages` array of `IntroHandler`. -/
def noMessages : List String :=
  ["No", "Are you sure??", "Really sure??", "Positive??",
   "I\x27ll be really sad...", "Please? 💔"]

/-- State of the intro interaction gate (`IntroHandler` fields plus
the style properties `handleNo` and `makeYesOnlyOption` write on the
two buttons). -/
structure GateState where
  noClickCount : Nat
  yesScale : ℚ
  btnNoText : String
  btnNoInteractive : Bool
  btnNoDisplayed : Bool
  yesOnly : Bool
  deriving DecidableEq

/-- The gate as constructed at page load (`noClickCount = 0`,
`yesScale = 1`); the initial No-button markup text is not part of the
scripts and is irrelevant to every claim, so it is modelled as the
empty string. -/
def initGate : GateState :=
  { noClickCount := 0, yesScale := 1, btnNoText := "",
    btnNoInteractive := true, btnNoDisplayed := true, yesOnly := false }

/-- `IntroHandler.makeYesOnlyOption`: hides the No button and makes
the Yes button fill the viewport. -/
def makeYesOnlyOption (s : GateState) : GateState :=
  { s with btnNoDisplayed := false, yesOnly := true }

/-- Second half of `handleNo`: grow the Yes button by 0.3, disable
the No button once the scale exceeds 4, and switch to the
yes-only layout once it exceeds 10. -/
def growYes (s2 : GateState) : GateState :=
  let s3 := { s2 with yesScale := s2.yesScale + 3/10 }
  let s4 := if s3.yesScale > 4 then { s3 with btnNoInteractive := false } else s3
  if s4.yesScale > 10 then makeYesOnlyOption s4 else s4

/-- `IntroHandler.handleNo`, line by line.  The message lookup
`this.noMessages[this.noClickCount - 1]` is modelled with `List.get?`
and `none` is an out-of-bounds read (the guard
`noClickCount <= noMessages.length` is supposed to prevent it). -/
def handleNo (s : GateState) : Option GateState :=
  let s1 := { s with noClickCount := s.noClickCount + 1 }
  if s1.noClickCount ≤ noMessages.length then
    match noMessages.get? (s1.noClickCount - 1) with
    | some m => some (growYes { s1 with btnNoText := m })
    | none => none
  else
    some (growYes s1)

/-- A click event on the No button: with `display: none` or
`pointer-events: none` the browser dispatches nothing, so the click
is a no-op; otherwise `handleNo` runs. -/
def clickNo (s : GateState) : Option GateState :=
  if s.btnNoDisplayed && s.btnNoInteractive then handleNo s else some s

/-- `n` successive clicks on the No button starting from the fresh
gate; `none` records that some click raised an exception. -/
def runDeclines : Nat → Option GateState
  | 0 => some initGate
  | n + 1 => (runDeclines n).bind clickNo

/-- Module-level bindings of the penguin script: the script-local
`let penguinTracker` and the `window.penguinTracker` property. -/
structure ModuleEnv where
  penguinTrackerLocal : Option AppState
  windowPenguinTracker : Option AppState

/-- Evaluation of the penguin script at page load: the declaration
`let penguinTracker;` leaves the local binding undefined, and the
final line `window.penguinTracker = penguinTracker` copies that
undefined value into the window property. -/
def moduleLoad : ModuleEnv :=
  { penguinTrackerLocal := none, windowPenguinTracker := none }

/-- `activatePenguins` (run from `handleYes`): assigns a fresh tracker
to the script-local binding only; the window property is not
reassigned. -/
def activatePenguins (env : ModuleEnv) (sv : StoredValue) : ModuleEnv :=
  { env with penguinTrackerLocal := some (constructTracker sv) }

/-- The gate state after 20 clicks on the No button.  Clicks 1–11 run
`handleNo` (click 11 pushes the scale to 4.3 > 4 and turns off
pointer events); clicks 12–20 are dispatched to a
`pointer-events: none` element and do nothing. -/
def gateAfter20 : GateState :=
  { noClickCount := 11, yesScale := 43/10, btnNoText := "Please? 💔",
    btnNoInteractive := false, btnNoDisplayed := true, yesOnly := false }

/-- Session-level invariant of the penguin system, indexed by the list
`ids` of identifiers discovered so far (in click order): the set
holds exactly their string values, listeners remain exactly on the
undiscovered penguins, the displayed count matches, and the
completion signal has fired exactly when the set is full. -/
def TInv (s : AppState) (ids : List String) : Prop :=
  ids.Nodup ∧ (∀ x ∈ ids, x ∈ penguinIds) ∧
  s.found = ids.map isStr ∧
  s.handlers = penguinIds.filter (fun x => !(ids.contains x)) ∧
  s.displayedCount = ids.length ∧
  s.completionSignals = (if ids.length = penguinIds.length then 1 else 0)

/-- Invariant of the gate's reachable states: the Yes scale follows
the decline count linearly, and once it exceeds 4 the No button has
pointer events disabled. -/
def GInv (s : GateState) : Prop :=
  s.yesScale = 1 + (3 / 10 : ℚ) * s.noClickCount ∧
  ((4 : ℚ) < s.yesScale → s.btnNoInteractive = false)

lemma penguinIds_nodup : penguinIds.Nodup := by decide

lemma sameValueZero_isStr {a b : String} :
    sameValueZero (isStr a) (isStr b) = true ↔ a = b := by
  simp [sameValueZero, isStr]

lemma jsSetMem_map_isStr {ids : List String} {x : String} :
    jsSetMem (ids.map isStr) (isStr x) = true ↔ x ∈ ids := by
  simp only [jsSetMem, List.any_eq_true]
  constructor
  · rintro ⟨y, hy, hsv⟩
    obtain ⟨a, ha, rfl⟩ := List.mem_map.mp hy
    exact (sameValueZero_isStr.mp hsv) ▸ ha
  · intro hx
    exact ⟨isStr x, List.mem_map_of_mem isStr hx, sameValueZero_isStr.mpr rfl⟩

lemma jsSetMem_map_isStr_false {ids : List String} {x : String} (h : x ∉ ids) :
    jsSetMem (ids.map isStr) (isStr x) = false := by
  cases h2 : jsSetMem (ids.map isStr) (isStr x) with
  | false => rfl
  | true => exact absurd (jsSetMem_map_isStr.mp h2) h

lemma jsSetAdd_map_isStr {ids : List String} {x : String} (h : x ∉ ids) :
    jsSetAdd (ids.map isStr) (isStr x) = (ids ++ [x]).map isStr := by
  simp [jsSetAdd, jsSetMem_map_isStr_false h]

lemma mem_handlers_iff {s : AppState} {ids : List String} (h : TInv s ids) {id : String} :
    id ∈ s.handlers ↔ id ∈ penguinIds ∧ id ∉ ids := by
  obtain ⟨-, -, -, hhand, -, -⟩ := h
  rw [hhand]
  simp [List.mem_filter]

lemma full_of_length {ids : List String} (hnd : ids.Nodup)
    (hsub : ∀ x ∈ ids, x ∈ penguinIds) (hlen : ids.length = penguinIds.length) :
    ∀ x ∈ penguinIds, x ∈ ids := by
  have hsubf : ids.toFinset ⊆ penguinIds.toFinset := by
    intro x hx
    exact List.mem_toFinset.mpr (hsub x (List.mem_toFinset.mp hx))
  have hcard : penguinIds.toFinset.card ≤ ids.toFinset.card := by
    rw [List.toFinset_card_of_nodup hnd, List.toFinset_card_of_nodup penguinIds_nodup, hlen]
  have heq := Finset.eq_of_subset_of_card_le hsubf hcard
  intro x hx
  exact List.mem_toFinset.mp (heq ▸ List.mem_toFinset.mpr hx)

lemma clickPenguin_ignored {s : AppState} {id : String} (hid : id ∉ s.handlers) :
    clickPenguin s id = (s, .ignored) := by
  simp [clickPenguin, hid]

lemma clickPenguin_handled {s : AppState} {ids : List String} (h : TInv s ids)
    {id : String} (hid : id ∈ s.handlers) :
    TInv (clickPenguin s id).1 (ids ++ [id]) := by
  obtain ⟨hpen, hnotin⟩ := (mem_handlers_iff h).mp hid
  obtain ⟨hnd, hsub, hfound, hhand, hdisp, hsig⟩ := h
  have hcontains : s.handlers.contains id = true := by
    simp [List.contains, hid]
  have hlen : ids.length ≠ penguinIds.length := fun hl =>
    hnotin (full_of_length hnd hsub hl id hpen)
  have hnd' : (ids ++ [id]).Nodup := by
    rw [List.nodup_append]
    exact ⟨hnd, List.nodup_singleton id,
      fun a ha hb => hnotin ((List.mem_singleton.mp hb) ▸ ha)⟩
  have hsub' : ∀ x ∈ ids ++ [id], x ∈ penguinIds := by
    intro x hx
    rcases List.mem_append.mp hx with h1 | h1
    · exact hsub x h1
    · exact (List.mem_singleton.mp h1) ▸ hpen
  have herase : s.handlers.erase id
      = penguinIds.filter (fun x => !((ids ++ [id]).contains x)) := by
    rw [hhand, List.Nodup.erase_eq_filter (penguinIds_nodup.filter _) id, List.filter_filter]
    apply List.filter_congr
    intro x _
    by_cases h1 : x = id <;> by_cases h2 : x ∈ ids <;>
      simp [List.contains, h1, h2, bne_iff_ne]
  have hm : handlePenguinClick s id = .ok (checkForCompletion
      { found := (ids ++ [id]).map isStr,
        handlers := s.handlers.erase id,
        slot := saveSlot ((ids ++ [id]).map isStr),
        displayedCount := ids.length + 1,
        counterShown := true,
        revealed := s.revealed,
        celebrations := s.celebrations + 1,
        feedbacks := s.feedbacks + 1,
        completionChecks := s.completionChecks,
        completionSignals := s.completionSignals }) := by
    have hdom : id ∈ domElementIds := List.mem_append.mpr (Or.inl hpen)
    simp [handlePenguinClick, hdom, hfound, jsSetAdd_map_isStr hnotin,
      updatePenguinCountDisplay, Nat.succ_pos]
  have hclick : (clickPenguin s id).1 = checkForCompletion
      { found := (ids ++ [id]).map isStr,
        handlers := s.handlers.erase id,
        slot := saveSlot ((ids ++ [id]).map isStr),
        displayedCount := ids.length + 1,
        counterShown := true,
        revealed := s.revealed,
        celebrations := s.celebrations + 1,
        feedbacks := s.feedbacks + 1,
        completionChecks := s.completionChecks,
        completionSignals := s.completionSignals } := by
    simp [clickPenguin, hid, hm]
  rw [hclick]
  by_cases hc : ids.length + 1 = penguinIds.length
  · refine ⟨hnd', hsub', ?_, ?_, ?_, ?_⟩ <;>
      simp [checkForCompletion, allPenguinsFound, isComplete, hc, herase, hsig, hlen]
  · refine ⟨hnd', hsub', ?_, ?_, ?_, ?_⟩ <;>
      simp [checkForCompletion, allPenguinsFound, isComplete, hc, herase, hsig, hlen]

lemma tinv_init : TInv initApp [] := by
  refine ⟨List.nodup_nil, by simp, rfl, rfl, rfl, rfl⟩

lemma runClicks_append_singleton (l : List String) (id : String) :
    runClicks initApp (l ++ [id]) = (clickPenguin (runClicks initApp l) id).1 := by
  simp [runClicks]

lemma runClicks_inv (l : List String) :
    ∃ ids : List String, TInv (runClicks initApp l) ids ∧
      ∀ x, x ∈ ids ↔ x ∈ penguinIds ∧ x ∈ l := by
  induction l using List.reverseRecOn with
  | nil => exact ⟨[], tinv_init, by simp⟩
  | append_singleton l id ih =>
    obtain ⟨ids, hinv, hchar⟩ := ih
    rw [runClicks_append_singleton]
    by_cases hid : id ∈ (runClicks initApp l).handlers
    · refine ⟨ids ++ [id], clickPenguin_handled hinv hid, ?_⟩
      obtain ⟨hpen, hnotin⟩ := (mem_handlers_iff hinv).mp hid
      intro x
      rw [List.mem_append, List.mem_singleton, hchar x, List.mem_append, List.mem_singleton]
      constructor
      · rintro (⟨h1, h2⟩ | rfl)
        · exact ⟨h1, Or.inl h2⟩
        · exact ⟨hpen, Or.inr rfl⟩
      · rintro ⟨h1, h2 | rfl⟩
        · exact Or.inl ⟨h1, h2⟩
        · exact Or.inr rfl
    · rw [clickPenguin_ignored hid]
      refine ⟨ids, hinv, ?_⟩
      have hni := (mem_handlers_iff hinv).not.mp hid
      intro x
      rw [hchar x, List.mem_append, List.mem_singleton]
      constructor
      · rintro ⟨h1, h2⟩
        exact ⟨h1, Or.inl h2⟩
      · rintro ⟨h1, h2 | rfl⟩
        · exact ⟨h1, h2⟩
        · refine ⟨h1, ?_⟩
          rcases not_and_or.mp hni with h3 | h3
          · exact absurd h1 h3
          · exact ((hchar x).mp (not_not.mp h3)).2

lemma sameValueZero_isStr_false {a b : String} (h : a ≠ b) :
    sameValueZero (isStr a) (isStr b) = false := by
  cases h2 : sameValueZero (isStr a) (isStr b) with
  | false => rfl
  | true => exact absurd (sameValueZero_isStr.mp h2) h

lemma jsSetMem_append {a b : List JSValue} {v : JSValue} :
    jsSetMem (a ++ b) v = (jsSetMem a v || jsSetMem b v) := by
  simp [jsSetMem, List.any_append]

lemma foldl_jsSetAdd_of_nodup :
    ∀ (S : List String) (acc : List JSValue),
      (∀ x ∈ S, jsSetMem acc (isStr x) = false) → S.Nodup →
      (S.map isStr).foldl jsSetAdd acc = acc ++ S.map isStr := by
  intro S
  induction S with
  | nil => intro acc _ _; simp
  | cons x xs ih =>
    intro acc hmem hnd
    have hx : jsSetMem acc (isStr x) = false := hmem x (List.mem_cons_self x xs)
    simp only [List.map_cons, List.foldl_cons, jsSetAdd, hx, Bool.false_eq_true,
      if_false]
    rw [ih (acc ++ [isStr x]) ?_ (List.nodup_cons.mp hnd).2]
    · simp
    · intro y hy
      have hyx : y ≠ x := fun he => (List.nodup_cons.mp hnd).1 (he ▸ hy)
      rw [jsSetMem_append, hmem y (List.mem_cons_of_mem x hy)]
      simp [jsSetMem, sameValueZero_isStr_false (Ne.symm hyx)]

lemma isComplete_iff {s : AppState} {ids : List String} (h : TInv s ids) :
    isComplete s = true ↔ ∀ x ∈ penguinIds, x ∈ ids := by
  obtain ⟨hnd, hsub, hfound, -, -, -⟩ := h
  rw [isComplete, hfound]
  simp only [List.length_map, beq_iff_eq]
  constructor
  · intro hlen
    exact full_of_length hnd hsub hlen
  · intro hall
    have hperm : ids.Perm penguinIds :=
      (List.perm_ext_iff_of_nodup hnd penguinIds_nodup).mpr
        (fun a => ⟨fun ha => hsub a ha, fun ha => hall a ha⟩)
    exact hperm.length_eq

lemma signals_law (l : List String) :
    (runClicks initApp l).completionSignals
      = if isComplete (runClicks initApp l) = true then 1 else 0 := by
  obtain ⟨ids, hinv, hchar⟩ := runClicks_inv l
  obtain ⟨hnd, hsub, hfound, hhand, hdisp, hsig⟩ := hinv
  have hic : isComplete (runClicks initApp l) = true ↔ ids.length = penguinIds.length := by
    rw [isComplete, hfound]
    simp
  by_cases hc : ids.length = penguinIds.length
  · rw [hsig, if_pos hc, if_pos (hic.mpr hc)]
  · have hfalse : ¬ isComplete (runClicks initApp l) = true := fun h2 => hc (hic.mp h2)
    rw [hsig, if_neg hc, if_neg hfalse]

lemma complete_mono (l : List String) (id : String)
    (h : isComplete (runClicks initApp l) = true) :
    isComplete (runClicks initApp (l ++ [id])) = true := by
  obtain ⟨ids, hinv, hchar⟩ := runClicks_inv l
  obtain ⟨ids2, hinv2, hchar2⟩ := runClicks_inv (l ++ [id])
  rw [isComplete_iff hinv2]
  have hall := (isComplete_iff hinv).mp h
  intro x hx
  have hxl : x ∈ l := ((hchar x).mp (hall x hx)).2
  exact (hchar2 x).mpr ⟨hx, List.mem_append.mpr (Or.inl hxl)⟩

lemma growYes_spec (s2 : GateState) :
    (growYes s2).yesScale = s2.yesScale + 3 / 10
    ∧ (growYes s2).noClickCount = s2.noClickCount
    ∧ ((4 : ℚ) < (growYes s2).yesScale → (growYes s2).btnNoInteractive = false) := by
  unfold growYes makeYesOnlyOption
  by_cases h4 : s2.yesScale + 3 / 10 > 4 <;>
    by_cases h10 : s2.yesScale + 3 / 10 > 10 <;>
      simp [h4, h10]

lemma handleNo_some (s : GateState) :
    ∃ s1, handleNo s = some s1
      ∧ s1.yesScale = s.yesScale + 3 / 10
      ∧ s1.noClickCount = s.noClickCount + 1
      ∧ ((4 : ℚ) < s1.yesScale → s1.btnNoInteractive = false) := by
  by_cases hguard : s.noClickCount + 1 ≤ noMessages.length
  · have hlt : s.noClickCount < 6 := by
      have : noMessages.length = 6 := rfl
      omega
    have hsome : (noMessages.get? s.noClickCount).isSome := by
      have hall : ∀ n, n < 6 → (noMessages.get? n).isSome := by decide
      exact hall _ hlt
    obtain ⟨m, hm⟩ := Option.isSome_iff_exists.mp hsome
    have hm2 : noMessages[s.noClickCount]? = some m := by
      rw [← List.get?_eq_getElem?]
      exact hm
    refine ⟨growYes { s with noClickCount := s.noClickCount + 1, btnNoText := m }, ?_, ?_, ?_, ?_⟩
    · simp [handleNo, hguard, hm2]
    · exact (growYes_spec _).1
    · exact (growYes_spec _).2.1
    · exact (growYes_spec _).2.2
  · refine ⟨growYes { s with noClickCount := s.noClickCount + 1 }, ?_, ?_, ?_, ?_⟩
    · simp [handleNo, hguard]
    · exact (growYes_spec _).1
    · exact (growYes_spec _).2.1
    · exact (growYes_spec _).2.2

lemma clickNo_spec {s : GateState} (h : GInv s) :
    ∃ s1, clickNo s = some s1 ∧ GInv s1 ∧ s.yesScale ≤ s1.yesScale := by
  obtain ⟨hlin, hthr⟩ := h
  by_cases hact : (s.btnNoDisplayed && s.btnNoInteractive) = true
  · obtain ⟨s1, hs1, hscale, hcount, hint⟩ := handleNo_some s
    refine ⟨s1, ?_, ⟨?_, hint⟩, ?_⟩
    · simp [clickNo, hact, hs1]
    · rw [hscale, hcount, hlin]
      push_cast
      ring
    · rw [hscale]
      linarith
  · refine ⟨s, ?_, ⟨hlin, hthr⟩, le_refl _⟩
    simp only [clickNo]
    rw [if_neg hact]

lemma runDeclines_spec : ∀ n, ∃ s, runDeclines n = some s ∧ GInv s := by
  intro n
  induction n with
  | zero =>
    refine ⟨initGate, rfl, ?_, ?_⟩
    · norm_num [initGate]
    · norm_num [initGate]
  | succ n ih =>
    obtain ⟨s, hs, hinv⟩ := ih
    obtain ⟨s1, hs1, hinv1, -⟩ := clickNo_spec hinv
    exact ⟨s1, by simp [runDeclines, hs, hs1], hinv1⟩

/-- C1: across every sequence of penguin-click events from the fresh
session, the CompletionReached signal (`allPenguinsFound`) has fired
exactly once when the Discovery Set equals the universe and zero
times otherwise; and a click emits it exactly when it flips the
completion status — so the click completing the set signals, and no
later click (in particular one whose id is already in the set) ever
signals again. -/
theorem completion_signal_fires_exactly_once :
    (∀ l : List String, (runClicks initApp l).completionSignals
        = if isComplete (runClicks initApp l) = true then 1 else 0)
    ∧ ∀ (l : List String) (id : String),
        (runClicks initApp (l ++ [id])).completionSignals
          = (runClicks initApp l).completionSignals
            + (if isComplete (runClicks initApp (l ++ [id])) = true
                 ∧ ¬ isComplete (runClicks initApp l) = true then 1 else 0) := by
  refine ⟨signals_law, ?_⟩
  intro l id
  rw [signals_law, signals_law]
  by_cases h1 : isComplete (runClicks initApp l) = true
  · rw [if_pos (complete_mono l id h1), if_pos h1,
      if_neg (fun hc => hc.2 h1)]
  · by_cases h2 : isComplete (runClicks initApp (l ++ [id])) = true
    · rw [if_pos h2, if_neg h1, if_pos ⟨h2, h1⟩]
    · rw [if_neg h2, if_neg h1, if_neg (fun hc => h2 hc.1)]

/-- C2: a click event carrying an identifier already in the Discovery
Set is a complete no-op returning the AlreadyFound outcome (modelled
as `Outcome.ignored`: the listener was removed on first discovery, so
nothing dispatches): the whole state — set, persisted slot, displayed
count, and every effect counter (save, celebration, feedback,
completion check, completion signal) — is unchanged. -/
theorem discover_already_found_noop (l : List String) (id : String)
    (h : jsSetMem (runClicks initApp l).found (isStr id) = true) :
    clickPenguin (runClicks initApp l) id = (runClicks initApp l, .ignored) := by
  obtain ⟨ids, hinv, hchar⟩ := runClicks_inv l
  have hmem : id ∈ ids := by
    rw [hinv.2.2.1] at h
    exact jsSetMem_map_isStr.mp h
  apply clickPenguin_ignored
  intro hh
  exact ((mem_handlers_iff hinv).mp hh).2 hmem

/-- Witness for C2 at the concrete input: after clicking penguin1, its
id is in the set, and a second click on it changes nothing. -/
theorem discover_already_found_noop_witness :
    jsSetMem (runClicks initApp ["penguin1"]).found (isStr "penguin1") = true
    ∧ clickPenguin (runClicks initApp ["penguin1"]) "penguin1"
        = (runClicks initApp ["penguin1"], .ignored) :=
  ⟨rfl, discover_already_found_noop ["penguin1"] "penguin1" rfl⟩

/-- C3 counterexample: with the out-of-universe identifier penguin6
the handler does throw, but only after inserting the invalid
identifier into the Discovery Set — the set is not left unchanged;
and with the out-of-universe identifier btnYes (an element the page
has from first render) the handler does not even throw: it returns
normally with the corrupted set kept.  Both refute the claim as
stated. -/
theorem invalid_id_counterexample :
    didThrow (handlePenguinClick initApp "penguin6") = true
    ∧ (stateAfter (handlePenguinClick initApp "penguin6")).found = [isStr "penguin6"]
    ∧ didThrow (handlePenguinClick initApp "btnYes") = false
    ∧ (stateAfter (handlePenguinClick initApp "btnYes")).found = [isStr "btnYes"]
    ∧ initApp.found = [] :=
  ⟨rfl, rfl, rfl, rfl, rfl⟩

lemma checkForCompletion_found_slot (X : AppState) :
    (checkForCompletion X).found = X.found ∧ (checkForCompletion X).slot = X.slot := by
  by_cases h : isComplete { X with completionChecks := X.completionChecks + 1 } = true <;>
    simp [checkForCompletion, allPenguinsFound, h]

lemma updateDisplay_found_slot (c : Nat) (X : AppState) :
    (updatePenguinCountDisplay c X).found = X.found
    ∧ (updatePenguinCountDisplay c X).slot = X.slot := by
  by_cases h : c > 0 <;> simp [updatePenguinCountDisplay, h]

/-- C3 amended: `handlePenguinClick` with an identifier outside the
fixed universe never validates: it inserts the identifier into the
Discovery Set and persists the corrupted set, and then throws a
TypeError exactly when no element of the page bears that identifier
(the celebration effect dereferences the null lookup); for an
identifier naming an existing non-penguin element (btnYes, btnNo,
secretSection, ...) the call completes without any failure.  The set
is never left unchanged, and the loud failure is incidental, not a
guard. -/
theorem invalid_id_corrupts_set (s : AppState) (id : String)
    (_h : id ∉ penguinIds) :
    (stateAfter (handlePenguinClick s id)).found = jsSetAdd s.found (isStr id)
    ∧ (stateAfter (handlePenguinClick s id)).slot = saveSlot (jsSetAdd s.found (isStr id))
    ∧ didThrow (handlePenguinClick s id) = !(domElementIds.contains id) := by
  by_cases hdom : id ∈ domElementIds
  · have hc : domElementIds.contains id = true := by simp [List.contains, hdom]
    refine ⟨?_, ?_, ?_⟩ <;>
      simp [handlePenguinClick, hdom, hc, stateAfter, didThrow,
        checkForCompletion_found_slot, updateDisplay_found_slot]
  · have hc : domElementIds.contains id = false := by simp [List.contains, hdom]
    refine ⟨?_, ?_, ?_⟩ <;>
      simp [handlePenguinClick, hdom, hc, stateAfter, didThrow]

/-- Witness for the amended C3 at two concrete inputs in the fresh
session: penguin6 (no such element — corrupts, then throws) and
btnYes (existing non-penguin element — corrupts and returns
normally). -/
theorem invalid_id_corrupts_set_witness :
    ("penguin6" ∉ penguinIds
      ∧ (stateAfter (handlePenguinClick initApp "penguin6")).found
          = jsSetAdd initApp.found (isStr "penguin6")
      ∧ didThrow (handlePenguinClick initApp "penguin6") = true)
    ∧ ("btnYes" ∉ penguinIds
      ∧ (stateAfter (handlePenguinClick initApp "btnYes")).found
          = jsSetAdd initApp.found (isStr "btnYes")
      ∧ didThrow (handlePenguinClick initApp "btnYes") = false) :=
  ⟨⟨by decide, (invalid_id_corrupts_set initApp "penguin6" (by decide)).1,
    ((invalid_id_corrupts_set initApp "penguin6" (by decide)).2.2).trans rfl⟩,
   ⟨by decide, (invalid_id_corrupts_set initApp "btnYes" (by decide)).1,
    ((invalid_id_corrupts_set initApp "btnYes" (by decide)).2.2).trans rfl⟩⟩

/-- C4: after any sequence of penguin-click events from the fresh
session, the completion test (`foundPenguins.size ===
penguinIds.length`) holds if and only if every one of the five
identifiers of the universe is in the Discovery Set; in particular it
is false on every proper subset. -/
theorem isComplete_iff_all_discovered (l : List String) :
    isComplete (runClicks initApp l) = true
      ↔ ∀ id ∈ penguinIds, jsSetMem (runClicks initApp l).found (isStr id) = true := by
  obtain ⟨ids, hinv, hchar⟩ := runClicks_inv l
  have hfound := hinv.2.2.1
  rw [isComplete_iff hinv]
  constructor
  · intro hall id hid
    rw [hfound]
    exact jsSetMem_map_isStr.mpr (hall id hid)
  · intro hall id hid
    have h2 := hall id hid
    rw [hfound] at h2
    exact jsSetMem_map_isStr.mp h2

/-- C5: after any sequence of penguin-click events from the fresh
session, the tracker's count (`foundPenguins.size`) and the displayed
count both equal the number of distinct universe identifiers occurring
in the sequence — independent of order and of repetitions, so clicking
an id twice yields the same count as once. -/
theorem currentCount_counts_distinct (l : List String) :
    (runClicks initApp l).found.length
        = (penguinIds.filter (fun id => l.contains id)).length
    ∧ (runClicks initApp l).displayedCount
        = (penguinIds.filter (fun id => l.contains id)).length := by
  obtain ⟨ids, hinv, hchar⟩ := runClicks_inv l
  obtain ⟨hnd, hsub, hfound, hhand, hdisp, hsig⟩ := hinv
  have hlen : ids.length = (penguinIds.filter (fun id => l.contains id)).length := by
    apply List.Perm.length_eq
    apply (List.perm_ext_iff_of_nodup hnd (penguinIds_nodup.filter _)).mpr
    intro a
    rw [List.mem_filter, hchar a]
    simp [List.contains]
  exact ⟨by rw [hfound, List.length_map, hlen], by rw [hdisp, hlen]⟩

/-- C6 counterexample: the stored value "ab" (a well-formed JSON
string, but not a serialized identifier list) makes `loadProgress`
return the two-element set of its characters — neither the empty set
nor any stored identifier set — refuting the claim that malformed
values load as empty and well-formed ones load as the stored set. -/
theorem load_malformed_counterexample :
    loadProgress (.parsed (.prim (.str "ab"))) = [isStr "a", isStr "b"]
    ∧ loadProgress (.parsed (.prim (.str "ab"))) ≠ []
    ∧ storedIdentifierSet (.parsed (.prim (.str "ab"))) = none := by
  refine ⟨rfl, ?_, rfl⟩
  have h1 : loadProgress (.parsed (.prim (.str "ab"))) = [isStr "a", isStr "b"] := rfl
  rw [h1]
  exact List.cons_ne_nil _ _

/-- C6 amended: `loadProgress` never throws and equals the total
function `loadSpec`: absent, disabled, unparsable and non-iterable
stored values load as the empty set; a stored JSON array loads as the
set of its elements; but a stored JSON string loads as the set of its
single-character substrings, so not every malformed value degrades to
empty. -/
theorem load_never_throws_spec (sv : StoredValue) :
    loadProgress sv = loadSpec sv := by
  cases sv with
  | absent => rfl
  | unreadable => rfl
  | emptyStr => rfl
  | malformed => rfl
  | parsed v =>
    cases v with
    | prim p => cases p <;> rfl
    | arr elems => rfl
    | obj => rfl

/-- C7: for every duplicate-free subset S of the universe (the empty
set included), saving S and loading yields back exactly S. -/
theorem save_load_roundtrip (S : List String) (hnd : S.Nodup)
    (_hsub : S ⊆ penguinIds) :
    loadProgress (saveSlot (S.map isStr)) = S.map isStr := by
  have h1 : loadProgress (saveSlot (S.map isStr)) = jsSetOf (S.map isStr) := rfl
  rw [h1, jsSetOf, foldl_jsSetAdd_of_nodup S [] (fun x _ => rfl) hnd]
  simp

/-- Witness for C7 at a concrete two-element subset of the universe. -/
theorem save_load_roundtrip_witness :
    (["penguin1", "penguin3"] : List String).Nodup
    ∧ (["penguin1", "penguin3"] : List String) ⊆ penguinIds
    ∧ loadProgress (saveSlot (["penguin1", "penguin3"].map isStr))
        = ["penguin1", "penguin3"].map isStr :=
  ⟨by decide, by decide, save_load_roundtrip ["penguin1", "penguin3"] (by decide) (by decide)⟩

/-- C8: clicking the decline (No) button any number of times — 20
included — never raises an exception (the message indexing never
reads out of bounds), the Yes button's scale is non-decreasing from
each click to the next, and once the scale has crossed the threshold
4 the No button has pointer events disabled, so further clicks on it
are no-ops. -/
theorem gate_decline_safe :
    (∀ n : Nat, ∃ s, runDeclines n = some s)
    ∧ (∀ (n : Nat) (s s1 : GateState), runDeclines n = some s →
        runDeclines (n + 1) = some s1 → s.yesScale ≤ s1.yesScale)
    ∧ (∀ (n : Nat) (s : GateState), runDeclines n = some s →
        (4 : ℚ) < s.yesScale → clickNo s = some s) := by
  refine ⟨?_, ?_, ?_⟩
  · intro n
    obtain ⟨s, hs, -⟩ := runDeclines_spec n
    exact ⟨s, hs⟩
  · intro n s s1 hs hs1
    obtain ⟨s0, hs0, hinv⟩ := runDeclines_spec n
    rw [hs] at hs0
    obtain rfl := Option.some_injective _ hs0.symm
    obtain ⟨s2, hs2, -, hle⟩ := clickNo_spec hinv
    have : runDeclines (n + 1) = some s2 := by simp [runDeclines, hs, hs2]
    rw [this] at hs1
    obtain rfl := Option.some_injective _ hs1
    exact hle
  · intro n s hs hscale
    obtain ⟨s0, hs0, hinv⟩ := runDeclines_spec n
    rw [hs] at hs0
    obtain rfl := Option.some_injective _ hs0.symm
    have hint := hinv.2 hscale
    simp [clickNo, hint]

/-- Witness for C8 at the concrete input of 20 decline clicks: the
run succeeds, the 21st click keeps the scale (43/10) unchanged, the
scale has crossed 4, and a further click on the No button is a
no-op. -/
theorem gate_decline_safe_witness :
    runDeclines 20 = some gateAfter20
    ∧ runDeclines 21 = some gateAfter20
    ∧ (4 : ℚ) < gateAfter20.yesScale
    ∧ gateAfter20.yesScale ≤ gateAfter20.yesScale
    ∧ clickNo gateAfter20 = some gateAfter20 := by
  have h20 : runDeclines 20 = some gateAfter20 := by
    norm_num [runDeclines, clickNo, handleNo, growYes, initGate, noMessages,
      makeYesOnlyOption, gateAfter20]
  have h21 : runDeclines 21 = some gateAfter20 := by
    norm_num [runDeclines, clickNo, handleNo, growYes, initGate, noMessages,
      makeYesOnlyOption, gateAfter20]
  have h4 : (4 : ℚ) < gateAfter20.yesScale := by
    norm_num [gateAfter20]
  exact ⟨h20, h21, h4,
    gate_decline_safe.2.1 20 gateAfter20 gateAfter20 h20 h21,
    gate_decline_safe.2.2 20 gateAfter20 h20 h4⟩

/-- C9: on every fresh page load the persisted entry is removed
unconditionally before the tracker is constructed (`initPage` runs at
script load; `activatePenguins` only after the Yes click), so whatever
was stored, the constructed tracker observes cleared storage and
starts with an empty Discovery Set. -/
theorem fresh_session_clears_progress (sv : StoredValue) :
    initPageSlot sv = .absent
    ∧ constructTracker (initPageSlot sv) = initApp
    ∧ (constructTracker (initPageSlot sv)).found = [] :=
  ⟨rfl, rfl, rfl⟩

/-- C10: the window.penguinTracker property is assigned once, at
module load, while the script-local binding is still undefined; every
later `activatePenguins` call reassigns only the local binding, so the
window property stays undefined across any number of activations —
the documented console entry point never reaches the tracker. -/
theorem window_tracker_stays_undefined :
    moduleLoad.windowPenguinTracker = none
    ∧ (∀ l : List StoredValue,
        (l.foldl activatePenguins moduleLoad).windowPenguinTracker = none)
    ∧ (∀ (env : ModuleEnv) (sv : StoredValue),
        (activatePenguins env sv).windowPenguinTracker = env.windowPenguinTracker
        ∧ (activatePenguins env sv).penguinTrackerLocal = some (constructTracker sv)) := by
  have hkeep : ∀ (l : List StoredValue) (env : ModuleEnv),
      (l.foldl activatePenguins env).windowPenguinTracker = env.windowPenguinTracker := by
    intro l
    induction l with
    | nil => intro env; rfl
    | cons a as ih =>
      intro env
      rw [List.foldl_cons, ih]
      rfl
  exact ⟨rfl, fun l => hkeep l moduleLoad, fun env sv => ⟨rfl, rfl⟩⟩

end ValentineProposal
